import Mathlib

/-!
Verification of the gilrs mapping engine and linux device-session engine.

This file shallowly embeds the two source files of the repository:
`src/mapping.rs` (SDL mapping parser, raw to canonical code tables) and
`src/platform/linux/gamepad.rs` (hotplug dispatch, native event decoding,
axis normalization).  Rust strings are modelled as `List Char` (Rust's
`split_at(1)` on the values is byte-based; every value whose first char is
ASCII behaves identically at the char level, and all dispatch characters
are ASCII).  Machine integers are modelled as `Nat`/`Int`; the only places
where wrap-around can occur in the source are modelled with explicit
`% 2 ^ w` casts (`as u16` in `map_rev`, `as i16` in the hat-axis state).
The `f32` arithmetic of axis normalization is modelled over `ℚ`: every
intermediate quantity is an integer that `f32` represents exactly, and the
final division is compared against the exactly representable bounds `±1`,
which rounding to nearest preserves.
-/

namespace Gilrs

/-! ## String utilities mirroring Rust `str::split` and integer parsing -/

/-- Model of Rust `str.split(c)`: `n` separators yield `n + 1` fields, an
empty string yields one empty field.  Never returns an empty list. -/
def splitOnChar (c : Char) : List Char → List (List Char)
  | [] => [[]]
  | x :: xs =>
    if x = c then [] :: splitOnChar c xs
    else
      match splitOnChar c xs with
      | [] => [[x]]
      | h :: t => (x :: h) :: t

/-- Value of a nonempty all-digit character list, `none` otherwise. -/
def digitsToNat? (s : List Char) : Option ℕ :=
  if s = [] ∨ ¬ s.all Char.isDigit then none
  else some (s.foldl (fun a c => 10 * a + (c.toNat - 48)) 0)

/-- Model of Rust `str::parse::<usize>()`: an optional leading plus sign,
then one or more digits, rejecting values that overflow 64 bits. -/
def parseUsize (s : List Char) : Option ℕ :=
  let t := match s with
    | '+' :: rest => rest
    | _ => s
  match digitsToNat? t with
  | some n => if n < 2 ^ 64 then some n else none
  | none => none

/-! ## Canonical native event codes (`gamepad.rs`, `native_ev_codes`) -/

def KEY_BTN_SOUTH : ℕ := 0x130
def KEY_BTN_EAST : ℕ := 0x131
def KEY_BTN_NORTH : ℕ := 0x133
def KEY_BTN_WEST : ℕ := 0x134
def KEY_BTN_TL : ℕ := 0x136
def KEY_BTN_TR : ℕ := 0x137
def KEY_BTN_TL2 : ℕ := 0x138
def KEY_BTN_TR2 : ℕ := 0x139
def KEY_BTN_SELECT : ℕ := 0x13a
def KEY_BTN_START : ℕ := 0x13b
def KEY_BTN_MODE : ℕ := 0x13c
def KEY_BTN_THUMBL : ℕ := 0x13d
def KEY_BTN_THUMBR : ℕ := 0x13e
def KEY_BTN_DPAD_UP : ℕ := 0x220
def KEY_BTN_DPAD_DOWN : ℕ := 0x221
def KEY_BTN_DPAD_LEFT : ℕ := 0x222
def KEY_BTN_DPAD_RIGHT : ℕ := 0x223

def ABS_X : ℕ := 0x00
def ABS_Y : ℕ := 0x01
def ABS_Z : ℕ := 0x02
def ABS_RX : ℕ := 0x03
def ABS_RY : ℕ := 0x04
def ABS_RZ : ℕ := 0x05
def ABS_HAT0X : ℕ := 0x10
def ABS_HAT0Y : ℕ := 0x11
def ABS_HAT1X : ℕ := 0x12
def ABS_HAT1Y : ℕ := 0x13
def ABS_HAT2X : ℕ := 0x14
def ABS_HAT2Y : ℕ := 0x15

def EV_KEY : ℕ := 0x01
def EV_ABS : ℕ := 0x03

/-- Modelled from the spec: the running platform name compared against the
`platform:` field.  The value itself is defined in `platform/linux/mod.rs`,
which is not part of the analysed sources; only inequality with a foreign
platform string matters to the parser. -/
def platformNAME : List Char := "Linux".data

/-! ## The `Mapping` data model (`mapping.rs`) -/

inductive ParseSdlMappingError where
  | MissingGuid
  | InvalidGuid
  | MissingName
  | InvalidPair
  | NotTargetPlatform
  | InvalidValue
  | InvalidBtn
  | InvalidAxis
deriving DecidableEq, Repr

inductive Kind where
  | button
  | axis
deriving DecidableEq, Repr

/-- Model of `VecMap<u16>` as an association list sorted by key in strictly
ascending order; `insert` replaces an existing key, iteration order is the
list order (ascending keys), matching `VecMap::iter`. -/
def vmInsert (k v : ℕ) : List (ℕ × ℕ) → List (ℕ × ℕ)
  | [] => [(k, v)]
  | (k1, v1) :: t =>
    if k < k1 then (k, v) :: (k1, v1) :: t
    else if k = k1 then (k, v) :: t
    else (k1, v1) :: vmInsert k v t

/-- Model of `VecMap::get`. -/
def vmGet (k : ℕ) : List (ℕ × ℕ) → Option ℕ
  | [] => none
  | (k1, v1) :: t => if k = k1 then some v1 else vmGet k t

structure Mapping where
  axes : List (ℕ × ℕ)
  btns : List (ℕ × ℕ)
  name : List Char
deriving DecidableEq, Repr

def Mapping.new : Mapping := ⟨[], [], []⟩

/-- `Mapping::map`: translate a raw code through the requested table with
identity fallback (`unwrap_or(&code)`). -/
def Mapping.map (m : Mapping) (code : ℕ) (kind : Kind) : ℕ :=
  match kind with
  | .button => (vmGet code m.btns).getD code
  | .axis => (vmGet code m.axes).getD code

/-- `Mapping::map_rev`: find the first entry whose value is `code` and
return its key (cast `as u16`), falling back to `code` itself. -/
def Mapping.map_rev (m : Mapping) (code : ℕ) (kind : Kind) : ℕ :=
  match kind with
  | .button =>
    match m.btns.find? (fun x => x.2 == code) with
    | some p => p.1 % 2 ^ 16
    | none => code
  | .axis =>
    match m.axes.find? (fun x => x.2 == code) with
    | some p => p.1 % 2 ^ 16
    | none => code

/-- Table selected by a `Kind`, for stating lookup properties once. -/
def Mapping.table (m : Mapping) (kind : Kind) : List (ℕ × ℕ) :=
  match kind with
  | .button => m.btns
  | .axis => m.axes

/-! ## The SDL mapping parser (`Mapping::parse_sdl_mapping`) -/

inductive BtnOrAxis where
  | axis (code : ℕ)
  | button (code : ℕ)
deriving DecidableEq, Repr

/-- `Mapping::get_btn`: a value `b<N>` selects the N-th available raw
button code.  The empty-value case is unreachable from all call sites
(`val.is_empty()` is checked first; `split_at(1)` would panic). -/
def get_btn (val : List Char) (buttons : List ℕ) : Except ParseSdlMappingError ℕ :=
  match val with
  | [] => .error .InvalidValue
  | ident :: rest =>
    if ident ≠ 'b' then .error .InvalidValue
    else
      match parseUsize rest with
      | none => .error .InvalidValue
      | some n =>
        match buttons.get? n with
        | some code => .ok code
        | none => .error .InvalidBtn

/-- `Mapping::get_axis`: `a<N>` selects the N-th available raw axis code,
`h0.<D>` selects a hat direction (1 or 4 vertical, 2 or 8 horizontal). -/
def get_axis (val : List Char) (axes : List ℕ) : Except ParseSdlMappingError ℕ :=
  match val with
  | [] => .error .InvalidValue
  | ident :: rest =>
    if ident = 'a' then
      match parseUsize rest with
      | none => .error .InvalidValue
      | some n =>
        match axes.get? n with
        | some code => .ok code
        | none => .error .InvalidAxis
    else if ident = 'h' then
      match ((splitOnChar '.' rest).get? 0).bind parseUsize with
      | none => .error .InvalidValue
      | some hat =>
        if hat ≠ 0 then .error .InvalidValue
        else
          match ((splitOnChar '.' rest).get? 1).bind parseUsize with
          | none => .error .InvalidValue
          | some dir =>
            if dir = 1 ∨ dir = 4 then .ok ABS_HAT0Y
            else if dir = 2 ∨ dir = 8 then .ok ABS_HAT0X
            else .error .InvalidValue
    else .error .InvalidValue

/-- `Mapping::get_btn_or_axis`: dispatch on the first character of the
value. -/
def get_btn_or_axis (val : List Char) (buttons axes : List ℕ) :
    Except ParseSdlMappingError BtnOrAxis :=
  match val with
  | [] => .error .InvalidValue
  | c :: _ =>
    if c = 'a' ∨ c = 'h' then (get_axis val axes).map .axis
    else if c = 'b' then (get_btn val buttons).map .button
    else .error .InvalidValue

/-- `Mapping::insert_btn`: a not-found button (`InvalidBtn`) is skipped,
other errors propagate. -/
def insert_btn (s : List Char) (btns : List ℕ) (map : List (ℕ × ℕ)) (ncode : ℕ) :
    Except ParseSdlMappingError (List (ℕ × ℕ)) :=
  match get_btn s btns with
  | .ok code => .ok (vmInsert code ncode map)
  | .error .InvalidBtn => .ok map
  | .error e => .error e

/-- `Mapping::insert_axis`: a not-found axis (`InvalidAxis`) is skipped,
other errors propagate. -/
def insert_axis (s : List Char) (axes : List ℕ) (map : List (ℕ × ℕ)) (ncode : ℕ) :
    Except ParseSdlMappingError (List (ℕ × ℕ)) :=
  match get_axis s axes with
  | .ok code => .ok (vmInsert code ncode map)
  | .error .InvalidAxis => .ok map
  | .error e => .error e

/-- `Mapping::insert_btn_or_axis`: only `InvalidAxis` is skipped; an
`InvalidBtn` from the button branch propagates as a hard error. -/
def insert_btn_or_axis (s : List Char) (btns axes : List ℕ) (map_btns map_axes : List (ℕ × ℕ))
    (ncode_btn ncode_axis : ℕ) :
    Except ParseSdlMappingError (List (ℕ × ℕ) × List (ℕ × ℕ)) :=
  match get_btn_or_axis s btns axes with
  | .ok (.button code) => .ok (vmInsert code ncode_btn map_btns, map_axes)
  | .ok (.axis code) => .ok (map_btns, vmInsert code ncode_axis map_axes)
  | .error .InvalidAxis => .ok (map_btns, map_axes)
  | .error e => .error e

/-- Handler selected by the key of a pair: the button-only keys, the
axis-only keys, the either-or keys (with their two candidate canonical
codes), the `platform` key, and unknown keys. -/
inductive KeyHandler where
  | btnKey (ncode : ℕ)
  | axisKey (ncode : ℕ)
  | eitherKey (ncode_btn ncode_axis : ℕ)
  | platformKey
  | unknownKey
deriving DecidableEq, Repr

/-- The arms of the `match key` dispatch in `parse_sdl_mapping`, with the
canonical code passed to the matching insert call. -/
def keyOf (key : List Char) : KeyHandler :=
  if key = "platform".data then .platformKey
  else if key = "x".data then .btnKey KEY_BTN_EAST
  else if key = "a".data then .btnKey KEY_BTN_SOUTH
  else if key = "b".data then .btnKey KEY_BTN_WEST
  else if key = "y".data then .btnKey KEY_BTN_NORTH
  else if key = "back".data then .btnKey KEY_BTN_SELECT
  else if key = "guide".data then .btnKey KEY_BTN_MODE
  else if key = "start".data then .btnKey KEY_BTN_START
  else if key = "leftstick".data then .btnKey KEY_BTN_THUMBL
  else if key = "rightstick".data then .btnKey KEY_BTN_THUMBR
  else if key = "leftx".data then .axisKey ABS_X
  else if key = "lefty".data then .axisKey ABS_Y
  else if key = "rightx".data then .axisKey ABS_RX
  else if key = "righty".data then .axisKey ABS_RY
  else if key = "leftshoulder".data then .eitherKey KEY_BTN_TL ABS_HAT1Y
  else if key = "lefttrigger".data then .eitherKey KEY_BTN_TL2 ABS_HAT2Y
  else if key = "rightshoulder".data then .eitherKey KEY_BTN_TR ABS_HAT1X
  else if key = "righttrigger".data then .eitherKey KEY_BTN_TR2 ABS_HAT2X
  else if key = "dpleft".data then .eitherKey KEY_BTN_DPAD_LEFT ABS_HAT0X
  else if key = "dpright".data then .eitherKey KEY_BTN_DPAD_RIGHT ABS_HAT0X
  else if key = "dpup".data then .eitherKey KEY_BTN_DPAD_UP ABS_HAT0Y
  else if key = "dpdown".data then .eitherKey KEY_BTN_DPAD_DOWN ABS_HAT0Y
  else .unknownKey

/-- One iteration of the `for pair in parts` loop of
`parse_sdl_mapping`: split the field on `:`, skip fields without a value
part or with an empty value, then run the handler the key selects. -/
def processPair (buttons axes : List ℕ) (m : Mapping) (pair : List Char) :
    Except ParseSdlMappingError Mapping :=
  match splitOnChar ':' pair with
  | [] => .error .InvalidPair
  | [_] => .ok m
  | key :: val :: _ =>
    if val = [] then .ok m
    else
      match keyOf key with
      | .platformKey => if val ≠ platformNAME then .error .NotTargetPlatform else .ok m
      | .btnKey n => (insert_btn val buttons m.btns n).map fun t => { m with btns := t }
      | .axisKey n => (insert_axis val axes m.axes n).map fun t => { m with axes := t }
      | .eitherKey nb na =>
        (insert_btn_or_axis val buttons axes m.btns m.axes nb na).map
          fun t => { m with btns := t.1, axes := t.2 }
      | .unknownKey => .ok m

/-- The `for` loop of `parse_sdl_mapping` over the remaining fields. -/
def processPairs (buttons axes : List ℕ) (m : Mapping) :
    List (List Char) → Except ParseSdlMappingError Mapping
  | [] => .ok m
  | pair :: rest =>
    match processPair buttons axes m pair with
    | .ok m1 => processPairs buttons axes m1 rest
    | .error e => .error e

/-- `Mapping::parse_sdl_mapping`: split on commas, discard the GUID field,
take the name field, then fold the key-value pairs. -/
def parse_sdl_mapping (line : List Char) (buttons axes : List ℕ) :
    Except ParseSdlMappingError Mapping :=
  match splitOnChar ',' line with
  | [] => .error .MissingGuid
  | [_] => .error .MissingName
  | _ :: name :: pairs => processPairs buttons axes { Mapping.new with name := name } pairs

/-! ## Canonical buttons, axes and events (`gamepad.rs`) -/

/-- The canonical `Button` enum of the abstraction layer.  The constructor
order mirrors the contiguous discriminant layout that `Button::from_u16`
relies on. -/
inductive Button where
  | South | East | C | North | West | Z
  | LeftTrigger | RightTrigger | LeftTrigger2 | RightTrigger2
  | Select | Start | Mode | LeftThumb | RightThumb
  | DPadUp | DPadDown | DPadLeft | DPadRight
deriving DecidableEq, Repr

/-- The canonical `Axis` enum of the abstraction layer. -/
inductive Axis where
  | LeftStickX | LeftStickY | LeftZ | RightStickX | RightStickY | RightZ
  | RightTrigger | LeftTrigger | RightTrigger2 | LeftTrigger2
deriving DecidableEq, Repr

/-- `Button::from_u16`: the contiguous native ranges `BTN_SOUTH..BTN_THUMBR`
and `BTN_DPAD_UP..BTN_DPAD_RIGHT` map onto the canonical variants in
order; every other code is unrecognized. -/
def Button.from_u16 (btn : ℕ) : Option Button :=
  match btn with
  | 0x130 => some .South
  | 0x131 => some .East
  | 0x132 => some .C
  | 0x133 => some .North
  | 0x134 => some .West
  | 0x135 => some .Z
  | 0x136 => some .LeftTrigger
  | 0x137 => some .RightTrigger
  | 0x138 => some .LeftTrigger2
  | 0x139 => some .RightTrigger2
  | 0x13a => some .Select
  | 0x13b => some .Start
  | 0x13c => some .Mode
  | 0x13d => some .LeftThumb
  | 0x13e => some .RightThumb
  | 0x220 => some .DPadUp
  | 0x221 => some .DPadDown
  | 0x222 => some .DPadLeft
  | 0x223 => some .DPadRight
  | _ => none

/-- `Axis::from_u16`: native stick codes `ABS_X..ABS_RZ` map directly, the
trigger codes `ABS_HAT1X..ABS_HAT2Y` map shifted by 10; the hat codes are
handled before this function is consulted. -/
def Axis.from_u16 (axis : ℕ) : Option Axis :=
  match axis with
  | 0x00 => some .LeftStickX
  | 0x01 => some .LeftStickY
  | 0x02 => some .LeftZ
  | 0x03 => some .RightStickX
  | 0x04 => some .RightStickY
  | 0x05 => some .RightZ
  | 0x12 => some .RightTrigger
  | 0x13 => some .LeftTrigger
  | 0x14 => some .RightTrigger2
  | 0x15 => some .LeftTrigger2
  | _ => none

/-- Modelled from the spec: `Axis::is_stick` (defined in the common
`gamepad.rs`, outside the analysed sources) distinguishes the four stick
axes, which get recentered, from triggers, which do not. -/
def Axis.is_stick (a : Axis) : Bool :=
  match a with
  | .LeftStickX | .LeftStickY | .RightStickX | .RightStickY => true
  | _ => false

inductive Status where
  | Connected
  | Disconnected
  | NotObserved
deriving DecidableEq, Repr

/-- Canonical events; axis values are the rational model of `f32`. -/
inductive Event where
  | ButtonPressed (btn : Button)
  | ButtonReleased (btn : Button)
  | AxisChanged (axis : Axis) (value : ℚ)
  | Connected
  | Disconnected
deriving DecidableEq, Repr

/-! ## Axis normalization (`Gamepad::axis_value`) -/

/-- The fields of `input_absinfo` the normalization reads. -/
structure AbsInfo where
  minimum : ℤ
  maximum : ℤ
  flat : ℤ
deriving DecidableEq, Repr

/-- The raw value after the recentering step of `axis_value`: when the
axis is a stick with an unsigned hardware range, half the maximum
(`i32` truncated division, `Int.tdiv`) is subtracted. -/
def recentered (axes_info : AbsInfo) (val : ℤ) (kind : Axis) : ℤ :=
  if kind.is_stick = true ∧ axes_info.minimum = 0 then val - Int.tdiv axes_info.maximum 2
  else val

/-- The maximum after the recentering step of `axis_value`; the divisor of
the normalization is this value minus the dead-zone width. -/
def adjustedMax (axes_info : AbsInfo) (kind : Axis) : ℤ :=
  if kind.is_stick = true ∧ axes_info.minimum = 0 then
    axes_info.maximum - Int.tdiv axes_info.maximum 2
  else axes_info.maximum

/-- `Gamepad::axis_value`: recentre unsigned stick ranges (the update
touches only `val` and `maximum`; the dead zone `flat` is unchanged),
apply the dead zone, divide by the adjusted span, and flip vertical stick
axes when nonzero. -/
def axis_value (axes_info : AbsInfo) (val : ℤ) (kind : Axis) : ℚ :=
  let v := recentered axes_info val kind
  let v2 : ℤ :=
    if |v| < axes_info.flat then 0
    else if 0 < v then v - axes_info.flat
    else v + axes_info.flat
  let q : ℚ := (v2 : ℚ) / ((adjustedMax axes_info kind - axes_info.flat : ℤ) : ℚ)
  q * (if (kind = Axis.LeftStickY ∨ kind = Axis.RightStickY) ∧ q ≠ 0 then -1 else 1)

/-! ## Native event decoding (`Gamepad::event`) -/

/-- Per-axis calibration table of a session (`AxesInfo`). -/
structure AxesInfo where
  x : AbsInfo
  y : AbsInfo
  z : AbsInfo
  rx : AbsInfo
  ry : AbsInfo
  rz : AbsInfo
  dpadx : AbsInfo
  dpady : AbsInfo
  left_tr : AbsInfo
  right_tr : AbsInfo
  left_tr2 : AbsInfo
  right_tr2 : AbsInfo
deriving DecidableEq, Repr

/-- Calibration record consulted for a canonical axis, mirroring the match
in `Gamepad::event`. -/
def AxesInfo.select (ai : AxesInfo) (a : Axis) : AbsInfo :=
  match a with
  | .LeftStickX => ai.x
  | .LeftStickY => ai.y
  | .LeftZ => ai.z
  | .RightStickX => ai.rx
  | .RightStickY => ai.ry
  | .RightZ => ai.rz
  | .LeftTrigger => ai.left_tr
  | .LeftTrigger2 => ai.left_tr2
  | .RightTrigger => ai.right_tr
  | .RightTrigger2 => ai.right_tr2

/-- One fixed-size native input record `{type, code, value}` (the
timestamp is never read). -/
structure InputRecord where
  etype : ℕ
  code : ℕ
  value : ℤ
deriving DecidableEq, Repr

/-- The mutable decoding state of a session: its mapping, calibration and
the stored hat signs `abs_dpad_prev_val` (a pair of `i16`). -/
structure DecodeState where
  mapping : Mapping
  axes_info : AxesInfo
  abs_dpad_prev_val : ℤ × ℤ
deriving DecidableEq, Repr

/-- All-zero calibration record, as `mem::zeroed` produces. -/
def zeroAbsInfo : AbsInfo := ⟨0, 0, 0⟩

/-- All-zero calibration table, as `mem::zeroed` produces. -/
def zeroAxesInfo : AxesInfo :=
  ⟨zeroAbsInfo, zeroAbsInfo, zeroAbsInfo, zeroAbsInfo, zeroAbsInfo, zeroAbsInfo,
   zeroAbsInfo, zeroAbsInfo, zeroAbsInfo, zeroAbsInfo, zeroAbsInfo, zeroAbsInfo⟩

/-- Cast of an integer `as i16`: wrap into `[-2 ^ 15, 2 ^ 15)`. -/
def toI16 (v : ℤ) : ℤ := (v + 2 ^ 15) % 2 ^ 16 - 2 ^ 15

/-- Body of the per-record match inside the read loop of
`Gamepad::event`: translate the raw code, synthesize hat presses and
releases, normalize analog axes.  Returns the updated state and the event
this record produced, if any. -/
def processRecord (s : DecodeState) (r : InputRecord) : DecodeState × Option Event :=
  if r.etype = EV_KEY then
    let code := s.mapping.map r.code Kind.button
    let ev := (Button.from_u16 code).bind fun btn =>
      if r.value = 0 then some (Event.ButtonReleased btn)
      else if r.value = 1 then some (Event.ButtonPressed btn)
      else none
    (s, ev)
  else if r.etype = EV_ABS then
    let code := s.mapping.map r.code Kind.axis
    if code = ABS_HAT0Y then
      let ev :=
        if r.value = 0 then
          if 0 < s.abs_dpad_prev_val.2 then some (Event.ButtonReleased Button.DPadDown)
          else if s.abs_dpad_prev_val.2 < 0 then some (Event.ButtonReleased Button.DPadUp)
          else none
        else if 0 < r.value then some (Event.ButtonPressed Button.DPadDown)
        else some (Event.ButtonPressed Button.DPadUp)
      ({ s with abs_dpad_prev_val := (s.abs_dpad_prev_val.1, toI16 r.value) }, ev)
    else if code = ABS_HAT0X then
      let ev :=
        if r.value = 0 then
          if 0 < s.abs_dpad_prev_val.1 then some (Event.ButtonReleased Button.DPadRight)
          else if s.abs_dpad_prev_val.1 < 0 then some (Event.ButtonReleased Button.DPadLeft)
          else none
        else if 0 < r.value then some (Event.ButtonPressed Button.DPadRight)
        else some (Event.ButtonPressed Button.DPadLeft)
      ({ s with abs_dpad_prev_val := (toI16 r.value, s.abs_dpad_prev_val.2) }, ev)
    else
      let ev := (Axis.from_u16 code).map fun axis =>
        Event.AxisChanged axis (axis_value (s.axes_info.select axis) r.value axis)
      (s, ev)
  else (s, none)

/-- Events emitted while decoding a sequence of native records.  The read
loop of `Gamepad::event` skips records that produce no event and returns
the first event of the remaining input, so repeatedly polling a session
over this record sequence yields exactly this list. -/
def decodeAll (s : DecodeState) : List InputRecord → List Event
  | [] => []
  | r :: rs =>
    match processRecord s r with
    | (s1, some ev) => ev :: decodeAll s1 rs
    | (s1, none) => decodeAll s1 rs

/-! ## Hotplug handling (`Gilrs::handle_hotplug`) -/

/-- The externally visible part of a stored session: its `Identity`
(128-bit uuid, modelled as a number) and connection status. -/
structure Session where
  uuid : ℕ
  status : Status
deriving DecidableEq, Repr

/-- Model of `Iterator::position`. -/
def position (p : Session → Bool) : List Session → Option ℕ
  | [] => none
  | x :: xs => if p x then some 0 else (position p xs).map (· + 1)

/-- The `add` branch of `Gilrs::handle_hotplug`, entered after
`Gamepad::open` succeeded for a device with identity `u`: reactivate the
first `Disconnected` session with the same uuid in place, otherwise append
a new session; either way report a `Connected` event for that index. -/
def handleHotplugAdd (gamepads : List Session) (u : ℕ) : List Session × ℕ × Event :=
  match position (fun gp => gp.uuid == u && gp.status == Status.Disconnected) gamepads with
  | some id => (gamepads.set id ⟨u, Status.Connected⟩, id, Event.Connected)
  | none => (gamepads ++ [⟨u, Status.Connected⟩], gamepads.length, Event.Connected)

/-! ## General lemmas about the embedded operations -/

theorem splitOnChar_ne_nil (c : Char) (s : List Char) : splitOnChar c s ≠ [] := by
  induction s with
  | nil => simp [splitOnChar]
  | cons x xs ih =>
    simp only [splitOnChar]
    split
    · simp
    · split
      · simp
      · simp

theorem splitOnChar_of_not_mem (c : Char) (s : List Char) (h : c ∉ s) :
    splitOnChar c s = [s] := by
  induction s with
  | nil => simp [splitOnChar]
  | cons x xs ih =>
    simp only [List.mem_cons, not_or] at h
    have hxc : ¬(x = c) := fun hh => h.1 hh.symm
    simp only [splitOnChar, if_neg hxc, ih h.2]

theorem except_map_error {ε α β : Type} (f : α → β) (x : Except ε α) (e : ε)
    (h : x.map f = .error e) : x = .error e := by
  cases x <;> simp_all [Except.map]

theorem get_btn_error (v : List Char) (bs : List ℕ) (e : ParseSdlMappingError)
    (h : get_btn v bs = .error e) : e = .InvalidValue ∨ e = .InvalidBtn := by
  unfold get_btn at h
  repeat' split at h
  all_goals simp_all

theorem get_axis_error (v : List Char) (as : List ℕ) (e : ParseSdlMappingError)
    (h : get_axis v as = .error e) : e = .InvalidValue ∨ e = .InvalidAxis := by
  unfold get_axis at h
  repeat' split at h
  all_goals simp_all

theorem get_btn_or_axis_error (v : List Char) (bs as : List ℕ) (e : ParseSdlMappingError)
    (h : get_btn_or_axis v bs as = .error e) :
    e = .InvalidValue ∨ e = .InvalidBtn ∨ e = .InvalidAxis := by
  unfold get_btn_or_axis at h
  repeat' split at h
  · simp_all
  · exact (get_axis_error _ _ _ (except_map_error _ _ _ h)).imp id .inr
  · exact (get_btn_error _ _ _ (except_map_error _ _ _ h)).imp id .inl
  · simp_all

theorem insert_btn_error (s : List Char) (bs : List ℕ) (map : List (ℕ × ℕ)) (n : ℕ)
    (e : ParseSdlMappingError) (h : insert_btn s bs map n = .error e) : e = .InvalidValue := by
  unfold insert_btn at h
  split at h
  · simp_all
  · simp_all
  · rename_i e1 _ _
    obtain rfl : e1 = e := by simp_all
    rcases get_btn_error _ _ _ (by assumption) with h2 | h2 <;> simp_all

theorem insert_axis_error (s : List Char) (as : List ℕ) (map : List (ℕ × ℕ)) (n : ℕ)
    (e : ParseSdlMappingError) (h : insert_axis s as map n = .error e) : e = .InvalidValue := by
  unfold insert_axis at h
  split at h
  · simp_all
  · simp_all
  · rename_i e1 _ _
    obtain rfl : e1 = e := by simp_all
    rcases get_axis_error _ _ _ (by assumption) with h2 | h2 <;> simp_all

theorem insert_btn_or_axis_error (s : List Char) (bs as : List ℕ)
    (mb ma : List (ℕ × ℕ)) (nb na : ℕ) (e : ParseSdlMappingError)
    (h : insert_btn_or_axis s bs as mb ma nb na = .error e) :
    e = .InvalidValue ∨ e = .InvalidBtn := by
  unfold insert_btn_or_axis at h
  split at h
  · simp_all
  · simp_all
  · simp_all
  · rename_i e1 _ _
    obtain rfl : e1 = e := by simp_all
    rcases get_btn_or_axis_error _ _ _ _ (by assumption) with h2 | h2 | h2 <;> simp_all

theorem processPair_error (bs as : List ℕ) (m : Mapping) (pair : List Char)
    (e : ParseSdlMappingError) (h : processPair bs as m pair = .error e) :
    e = .NotTargetPlatform ∨ e = .InvalidValue ∨ e = .InvalidBtn := by
  unfold processPair at h
  split at h
  · exact absurd (by assumption) (splitOnChar_ne_nil _ _)
  · exact Except.noConfusion h
  · split at h
    · exact Except.noConfusion h
    · split at h
      all_goals first
        | exact Except.noConfusion h
        | (split at h
           · injection h with h; exact .inl h.symm
           · exact Except.noConfusion h)
        | exact .inr (.inl (insert_btn_error _ _ _ _ _ (except_map_error _ _ _ h)))
        | exact .inr (.inl (insert_axis_error _ _ _ _ _ (except_map_error _ _ _ h)))
        | exact (insert_btn_or_axis_error _ _ _ _ _ _ _ _
            (except_map_error _ _ _ h)).elim (fun h2 => .inr (.inl h2)) (fun h2 => .inr (.inr h2))

theorem processPairs_error (bs as : List ℕ) (l : List (List Char)) (m : Mapping)
    (e : ParseSdlMappingError) (h : processPairs bs as m l = .error e) :
    e = .NotTargetPlatform ∨ e = .InvalidValue ∨ e = .InvalidBtn := by
  induction l generalizing m with
  | nil => simp [processPairs] at h
  | cons p rest ih =>
    unfold processPairs at h
    split at h
    · exact ih _ h
    · rename_i e1 he
      obtain rfl : e1 = e := by simp_all
      exact processPair_error _ _ _ _ _ he

theorem vmGet_mem (k v : ℕ) (l : List (ℕ × ℕ)) (h : vmGet k l = some v) : (k, v) ∈ l := by
  induction l with
  | nil => simp [vmGet] at h
  | cons p t ih =>
    obtain ⟨k1, v1⟩ := p
    unfold vmGet at h
    split at h
    · simp_all
    · exact .tail _ (ih h)


/-! ## Claim theorems -/

/-- C7: for every `Mapping` and every raw code with no entry in the
relevant table, `map` returns the code itself: the raw-to-canonical
translation is total with identity fallback and never fails. -/
theorem C7_map_identity_fallback (m : Mapping) (code : ℕ) (kind : Kind)
    (h : vmGet code (m.table kind) = none) : m.map code kind = code := by
  cases kind <;> simp only [Mapping.map, Mapping.table] at h ⊢ <;> rw [h] <;> rfl

/-- Witness for C7: the empty mapping maps code 5 to itself. -/
theorem C7_map_identity_fallback_witness :
    vmGet 5 (Mapping.new.table Kind.button) = none ∧ Mapping.new.map 5 Kind.button = 5 :=
  ⟨by decide, C7_map_identity_fallback Mapping.new 5 Kind.button (by decide)⟩

/-- C9: for every `Mapping` and every canonical code that appears as no
entry value in the relevant table, `map_rev` returns the code itself: the
identity fallback applies to reverse resolution as well. -/
theorem C9_map_rev_identity_fallback (m : Mapping) (code : ℕ) (kind : Kind)
    (h : ∀ p ∈ m.table kind, p.2 ≠ code) : m.map_rev code kind = code := by
  have hf : ∀ (l : List (ℕ × ℕ)), (∀ p ∈ l, p.2 ≠ code) →
      l.find? (fun x => x.2 == code) = none := by
    intro l hl
    rw [List.find?_eq_none]
    intro p hp
    simpa using hl p hp
  cases kind <;> simp only [Mapping.map_rev, Mapping.table] at h ⊢ <;> rw [hf _ h]

/-- Witness for C9: the empty mapping reverse-maps code 7 to itself. -/
theorem C9_map_rev_identity_fallback_witness :
    (∀ p ∈ Mapping.new.table Kind.axis, p.2 ≠ 7) ∧ Mapping.new.map_rev 7 Kind.axis = 7 :=
  ⟨by decide, C9_map_rev_identity_fallback Mapping.new 7 Kind.axis (by decide)⟩

/-- C1: the either-or key handler does NOT treat the two branches
symmetrically: an out-of-range `b<N>` value aborts the whole parse with
`InvalidBtn`, while an out-of-range `a<N>` value on the same key is
skipped and parsing succeeds.  The claim (and the spec, which flags the
asymmetry as unintentional) requires both to be skipped. -/
theorem C1_either_or_key_asymmetry :
    parse_sdl_mapping "g,n,dpleft:b2".data [0, 1] [0, 1]
      = .error .InvalidBtn
    ∧ parse_sdl_mapping "g,n,dpleft:a2".data [0, 1] [0, 1]
      = .ok ⟨[], [], "n".data⟩ := by
  constructor <;> rfl

/-- C4 counterexample: a definition text with a comma-separated field
(`x`) that has a key but no `:` separator parses successfully instead of
returning `InvalidPair`. -/
theorem C4_counterexample :
    parse_sdl_mapping "g,n,x".data [] [] = .ok ⟨[], [], "n".data⟩
    ∧ parse_sdl_mapping "g,n,x".data [] [] ≠ .error .InvalidPair := by
  constructor
  · rfl
  · intro h
    rw [show parse_sdl_mapping "g,n,x".data [] [] = .ok ⟨[], [], "n".data⟩ from rfl] at h
    exact Except.noConfusion h

/-- C4 (amended): a comma-separated field whose key has no `:` separator
is silently skipped (the mapping is unchanged and parsing continues), and
`parse_sdl_mapping` never returns `InvalidPair` for any input: the
`InvalidPair` branch is dead code because splitting a field on `:` always
yields at least one part. -/
theorem C4_no_colon_field_skipped :
    (∀ (bs as : List ℕ) (m : Mapping) (pair : List Char),
      ':' ∉ pair → processPair bs as m pair = .ok m)
    ∧ ∀ (line : List Char) (bs as : List ℕ),
      parse_sdl_mapping line bs as ≠ .error .InvalidPair := by
  constructor
  · intro bs as m pair hp
    unfold processPair
    rw [splitOnChar_of_not_mem _ _ hp]
  · intro line bs as h
    unfold parse_sdl_mapping at h
    split at h
    · simp at h
    · simp at h
    · rcases processPairs_error _ _ _ _ _ h with h1 | h1 | h1 <;> simp at h1

/-- Witness for C4 at a concrete colon-free field and a concrete line. -/
theorem C4_no_colon_field_skipped_witness :
    (':' ∉ "nocolon".data ∧ processPair [] [] Mapping.new "nocolon".data = .ok Mapping.new)
    ∧ parse_sdl_mapping "g,n".data [] [] ≠ .error .InvalidPair :=
  ⟨⟨by decide, C4_no_colon_field_skipped.1 [] [] Mapping.new "nocolon".data (by decide)⟩,
   C4_no_colon_field_skipped.2 "g,n".data [] []⟩

/-- C10: the parse result does not depend on the content of the first
(GUID) field when at least two comma-separated fields exist, and
`parse_sdl_mapping` never returns `InvalidGuid` for any input. -/
theorem C10_guid_never_inspected :
    (∀ (l1 l2 f1 f2 : List Char) (rest : List (List Char)) (bs as : List ℕ),
      splitOnChar ',' l1 = f1 :: rest → splitOnChar ',' l2 = f2 :: rest → rest ≠ [] →
      parse_sdl_mapping l1 bs as = parse_sdl_mapping l2 bs as)
    ∧ ∀ (line : List Char) (bs as : List ℕ),
      parse_sdl_mapping line bs as ≠ .error .InvalidGuid := by
  constructor
  · intro l1 l2 f1 f2 rest bs as h1 h2 hne
    unfold parse_sdl_mapping
    rw [h1, h2]
    cases rest with
    | nil => exact absurd rfl hne
    | cons name pairs => rfl
  · intro line bs as h
    unfold parse_sdl_mapping at h
    split at h
    · simp at h
    · simp at h
    · rcases processPairs_error _ _ _ _ _ h with h1 | h1 | h1 <;> simp at h1

/-- Witness for C10: two lines differing only in the GUID field parse
identically, and a concrete parse is not `InvalidGuid`. -/
theorem C10_guid_never_inspected_witness :
    (splitOnChar ',' "aa,n".data = "aa".data :: ["n".data]
      ∧ splitOnChar ',' "bb,n".data = "bb".data :: ["n".data]
      ∧ (["n".data] : List (List Char)) ≠ []
      ∧ parse_sdl_mapping "aa,n".data [] [] = parse_sdl_mapping "bb,n".data [] [])
    ∧ parse_sdl_mapping "x".data [] [] ≠ .error .InvalidGuid :=
  ⟨⟨by decide, by decide, by decide,
    C10_guid_never_inspected.1 "aa,n".data "bb,n".data "aa".data "bb".data
      ["n".data] [] [] (by decide) (by decide) (by decide)⟩,
   C10_guid_never_inspected.2 "x".data [] []⟩


/-- If `(r, c)` is an entry of `l` and every entry with value `c` has key
`r`, then the first entry `find?` locates for value `c` has key `r`. -/
theorem find?_value_unique (l : List (ℕ × ℕ)) (r c : ℕ) (hmem : (r, c) ∈ l)
    (huniq : ∀ p ∈ l, p.2 = c → p.1 = r) :
    ∃ p, l.find? (fun x => x.2 == c) = some p ∧ p.1 = r := by
  cases hf : l.find? (fun x => x.2 == c) with
  | none =>
    have := List.find?_eq_none.mp hf (r, c) hmem
    simp at this
  | some p =>
    exact ⟨p, rfl, huniq p (List.mem_of_find?_eq_some hf) (by simpa using List.find?_some hf)⟩

/-- C5 counterexample: in `a:b0,b:b0` both pairs resolve to raw code 5,
the second insert overwrites the first, so the declared pair `a:b0`
(raw 5, canonical `BTN_SOUTH`) does not satisfy `map(raw) == canonical`
in the resulting mapping. -/
theorem C5_counterexample :
    parse_sdl_mapping "g,n,a:b0,b:b0".data [5] []
      = .ok ⟨[], [(5, KEY_BTN_WEST)], "n".data⟩
    ∧ (Mapping.mk [] [(5, KEY_BTN_WEST)] "n".data).map 5 Kind.button ≠ KEY_BTN_SOUTH := by
  constructor
  · rfl
  · decide

/-- C5 (amended): for every successful parse and every entry
`raw ↦ canonical` present in a table of the resulting mapping (a declared
pair that resolved and was not overwritten by a later pair),
`map(raw) = canonical`; and if additionally no other entry of that table
carries the same canonical value, `map_rev(canonical) = raw`. -/
theorem C5_parse_roundtrip (line : List Char) (bs as : List ℕ) (m : Mapping)
    (_hp : parse_sdl_mapping line bs as = .ok m) (kind : Kind) (r c : ℕ)
    (hrc : vmGet r (m.table kind) = some c) :
    m.map r kind = c
    ∧ ((∀ p ∈ m.table kind, p.2 = c → p.1 = r) → r < 2 ^ 16 → m.map_rev c kind = r) := by
  constructor
  · cases kind <;> simp only [Mapping.map, Mapping.table] at hrc ⊢ <;> rw [hrc] <;> rfl
  · intro huniq hr
    have hmem : (r, c) ∈ m.table kind := vmGet_mem _ _ _ hrc
    cases kind
    all_goals
      obtain ⟨p, hf, hpr⟩ := find?_value_unique _ r c hmem huniq
      simp only [Mapping.table] at hf
      simp only [Mapping.map_rev]
      rw [hf]
      show p.1 % 2 ^ 16 = r
      omega

/-- Witness for C5: the single pair `a:b0` with button list `[7]` yields
the entry `7 ↦ BTN_SOUTH`, and both roundtrip directions hold. -/
theorem C5_parse_roundtrip_witness :
    (Mapping.mk [] [(7, KEY_BTN_SOUTH)] "n".data).map 7 Kind.button = KEY_BTN_SOUTH
    ∧ (Mapping.mk [] [(7, KEY_BTN_SOUTH)] "n".data).map_rev KEY_BTN_SOUTH Kind.button = 7 :=
  have h := C5_parse_roundtrip "g,n,a:b0".data [7] []
    (Mapping.mk [] [(7, KEY_BTN_SOUTH)] "n".data) rfl Kind.button 7 KEY_BTN_SOUTH (by decide)
  ⟨h.1, h.2 (by decide) (by decide)⟩

/-- `position` returns an index inside the list whose element satisfies
the predicate. -/
theorem position_some (p : Session → Bool) (l : List Session) (i : ℕ)
    (h : position p l = some i) :
    i < l.length ∧ ∃ x, l[i]? = some x ∧ p x = true := by
  induction l generalizing i with
  | nil => simp [position] at h
  | cons a t ih =>
    unfold position at h
    split at h
    · obtain rfl : i = 0 := by simpa using h.symm
      exact ⟨by simp, a, List.getElem?_cons_zero, by assumption⟩
    · cases hp : position p t with
      | none => rw [hp] at h; simp at h
      | some j =>
        rw [hp] at h
        obtain rfl : i = j + 1 := by simpa using h.symm
        obtain ⟨hj, x, hx, hpx⟩ := ih j hp
        exact ⟨by simpa using hj, x, by simpa using hx, hpx⟩

/-- `position` misses exactly when no element satisfies the predicate. -/
theorem position_none (p : Session → Bool) (l : List Session)
    (h : ∀ x ∈ l, p x = false) : position p l = none := by
  induction l with
  | nil => rfl
  | cons a t ih =>
    unfold position
    rw [if_neg (by simp [h a (by simp)]), ih fun x hx => h x (List.mem_cons_of_mem _ hx)]
    rfl

/-- C6: hotplug add with a successful open.  If `i` is the first index
holding a `Disconnected` session with the arriving identity, that session
is replaced in place at index `i` (now `Connected`) and `(i, Connected)`
is returned, all other entries untouched; if no `Disconnected` session
matches the identity, a new session is appended and the new last index is
returned with `Connected`; no entry is ever removed or renumbered. -/
theorem C6_hotplug_reuse_or_append (pads : List Session) (u : ℕ) :
    (∀ i, position (fun gp => gp.uuid == u && gp.status == Status.Disconnected) pads = some i →
      handleHotplugAdd pads u = (pads.set i (Session.mk u Status.Connected), i, Event.Connected)
      ∧ (pads.set i (Session.mk u Status.Connected)).length = pads.length
      ∧ (pads.set i (Session.mk u Status.Connected))[i]? = some (Session.mk u Status.Connected)
      ∧ ∀ j, j ≠ i → (pads.set i (Session.mk u Status.Connected))[j]? = pads[j]?)
    ∧ ((∀ gp ∈ pads, ¬(gp.uuid = u ∧ gp.status = Status.Disconnected)) →
      handleHotplugAdd pads u
        = (pads ++ [Session.mk u Status.Connected], pads.length, Event.Connected)
      ∧ ∀ j, j < pads.length →
        (pads ++ [Session.mk u Status.Connected])[j]? = pads[j]?) := by
  constructor
  · intro i hi
    have hlen : i < pads.length := (position_some _ _ _ hi).1
    refine ⟨?_, List.length_set pads i _, ?_, ?_⟩
    · unfold handleHotplugAdd
      rw [hi]
    · exact List.getElem?_set_eq_of_lt _ hlen
    · intro j hj
      exact List.getElem?_set_ne (fun hh => hj hh.symm)
  · intro hnone
    have hpos : position (fun gp => gp.uuid == u && gp.status == Status.Disconnected) pads
        = none := by
      refine position_none _ _ fun x hx => ?_
      cases hbe : (x.uuid == u && x.status == Status.Disconnected) with
      | false => rfl
      | true =>
        exact absurd (by simpa [Bool.and_eq_true, beq_iff_eq] using hbe) (hnone x hx)
    refine ⟨?_, ?_⟩
    · unfold handleHotplugAdd
      rw [hpos]
    · intro j hj
      exact List.getElem?_append_left hj


/-- Witness for C6: identity 7 reconnects in place at index 0; identity 9
matches nothing and is appended at index 1. -/
theorem C6_hotplug_reuse_or_append_witness :
    handleHotplugAdd [Session.mk 7 Status.Disconnected, Session.mk 9 Status.Connected] 7
      = ([Session.mk 7 Status.Connected, Session.mk 9 Status.Connected], 0, Event.Connected)
    ∧ handleHotplugAdd [Session.mk 7 Status.Connected] 9
      = ([Session.mk 7 Status.Connected, Session.mk 9 Status.Connected], 1, Event.Connected) :=
  ⟨((C6_hotplug_reuse_or_append
      [Session.mk 7 Status.Disconnected, Session.mk 9 Status.Connected] 7).1 0 (by decide)).1,
   ((C6_hotplug_reuse_or_append
      [Session.mk 7 Status.Connected] 9).2 (by decide)).1⟩


/-- The recentered value stays within the adjusted maximum in magnitude,
provided the raw value is in the declared range and the declared range is
not wider below than above (`-maximum ≤ minimum`). -/
theorem recentered_bounds (info : AbsInfo) (val : ℤ) (kind : Axis)
    (hlo : info.minimum ≤ val) (hhi : val ≤ info.maximum)
    (hsym : -info.maximum ≤ info.minimum) :
    -(adjustedMax info kind) ≤ recentered info val kind
    ∧ recentered info val kind ≤ adjustedMax info kind := by
  unfold recentered adjustedMax
  by_cases hc : kind.is_stick = true ∧ info.minimum = 0
  · rw [if_pos hc, if_pos hc]
    have hmin := hc.2
    have hmax0 : 0 ≤ info.maximum := by omega
    rw [Int.tdiv_eq_ediv hmax0 (by omega)]
    omega
  · rw [if_neg hc, if_neg hc]
    omega

/-- C2 counterexample: with the common signed 16-bit calibration
`minimum = -32768, maximum = 32767` and no dead zone, the raw value
`-32768` lies in the declared range but normalizes to `-32768/32767`,
strictly below `-1`. -/
theorem C2_counterexample :
    (AbsInfo.mk (-32768) 32767 0).minimum ≤ -32768
    ∧ (-32768 : ℤ) ≤ (AbsInfo.mk (-32768) 32767 0).maximum
    ∧ axis_value (AbsInfo.mk (-32768) 32767 0) (-32768) Axis.LeftStickX < -1 := by
  refine ⟨by decide, by decide, ?_⟩
  norm_num [axis_value, recentered, adjustedMax, Axis.is_stick]
  rw [if_neg (by decide)]
  norm_num

/-- C2 (amended): for every analog non-hat axis record whose raw value
lies within the declared calibration range, the normalized value lies in
`[-1, 1]`, provided the calibration is well formed: the dead-zone width is
nonnegative and smaller than the adjusted maximum, and the declared range
is not wider below than above (`-maximum ≤ minimum`).  Nonnegativity of
the dead-zone width also keeps every `i32` intermediate of the source
(`val ± flat`, `maximum - flat`) within range on `i32`-representable
calibrations, so the exact integer model is faithful on the whole
hypothesis region. -/
theorem C2_axis_value_within_unit (info : AbsInfo) (val : ℤ) (kind : Axis)
    (hlo : info.minimum ≤ val) (hhi : val ≤ info.maximum)
    (_hflat : 0 ≤ info.flat) (hspan : info.flat < adjustedMax info kind)
    (hsym : -info.maximum ≤ info.minimum) :
    -1 ≤ axis_value info val kind ∧ axis_value info val kind ≤ 1 := by
  obtain ⟨hv1, hv2⟩ := recentered_bounds info val kind hlo hhi hsym
  simp only [axis_value]
  set v := recentered info val kind with hv
  set D := adjustedMax info kind with hD
  set w : ℤ := if |v| < info.flat then 0 else if 0 < v then v - info.flat
    else v + info.flat with hw
  have hwb : -(D - info.flat) ≤ w ∧ w ≤ D - info.flat := by
    rw [hw]
    rcases abs_cases v with ⟨habs, hsign⟩ | ⟨habs, hsign⟩ <;> rw [habs] <;>
      split_ifs <;> omega
  have hDq : (0 : ℚ) < ((D - info.flat : ℤ) : ℚ) := by
    exact_mod_cast (by omega : (0 : ℤ) < D - info.flat)
  have hq1 : ((w : ℚ) / ((D - info.flat : ℤ) : ℚ)) ≤ 1 := by
    rw [div_le_one hDq]
    exact_mod_cast hwb.2
  have hq2 : -1 ≤ ((w : ℚ) / ((D - info.flat : ℤ) : ℚ)) := by
    rw [le_div_iff₀ hDq]
    have h2 : (-1 : ℤ) * (D - info.flat) ≤ w := by omega
    exact_mod_cast h2
  split_ifs with hcond
  · constructor <;> nlinarith [hq1, hq2]
  · exact ⟨by rw [mul_one]; exact hq2, by rw [mul_one]; exact hq1⟩

/-- Witness for C2 at an unsigned stick calibration `0..255` with dead
zone 10 and raw value 200. -/
theorem C2_axis_value_within_unit_witness :
    -1 ≤ axis_value (AbsInfo.mk 0 255 10) 200 Axis.LeftStickX
    ∧ axis_value (AbsInfo.mk 0 255 10) 200 Axis.LeftStickX ≤ 1 :=
  C2_axis_value_within_unit (AbsInfo.mk 0 255 10) 200 Axis.LeftStickX
    (by decide) (by decide) (by decide) (by decide) (by decide)

/-- C8: a raw value whose recentered magnitude lies strictly inside the
dead-zone width normalizes to exactly 0 (the nondegeneracy hypothesis
`adjustedMax ≠ flat` keeps the divisor nonzero, matching the `f32`
behaviour). -/
theorem C8_deadzone_zero (info : AbsInfo) (val : ℤ) (kind : Axis)
    (hdz : |recentered info val kind| < info.flat)
    (_hden : adjustedMax info kind ≠ info.flat) :
    axis_value info val kind = 0 := by
  simp only [axis_value]
  rw [if_pos hdz]
  simp

/-- Witness for C8 at calibration `(-10, 10, 5)` and raw value 3. -/
theorem C8_deadzone_zero_witness :
    |recentered (AbsInfo.mk (-10) 10 5) 3 Axis.LeftTrigger| < (AbsInfo.mk (-10) 10 5).flat
    ∧ adjustedMax (AbsInfo.mk (-10) 10 5) Axis.LeftTrigger ≠ (AbsInfo.mk (-10) 10 5).flat
    ∧ axis_value (AbsInfo.mk (-10) 10 5) 3 Axis.LeftTrigger = 0 :=
  ⟨by decide, by decide,
   C8_deadzone_zero (AbsInfo.mk (-10) 10 5) 3 Axis.LeftTrigger (by decide) (by decide)⟩

/-- C3 counterexample: the stored hat sign is truncated `as i16`, so the
sequence `0, 32768, 0` on the horizontal hat presses `DPadRight` but then
releases `DPadLeft` — the opposite-side button. -/
theorem C3_counterexample :
    decodeAll (DecodeState.mk Mapping.new zeroAxesInfo (0, 0))
        [InputRecord.mk EV_ABS ABS_HAT0X 0, InputRecord.mk EV_ABS ABS_HAT0X 32768,
         InputRecord.mk EV_ABS ABS_HAT0X 0]
      = [Event.ButtonPressed Button.DPadRight, Event.ButtonReleased Button.DPadLeft]
    ∧ Event.ButtonReleased Button.DPadLeft ≠ Event.ButtonReleased Button.DPadRight := by
  constructor
  · rfl
  · decide

/-- C3 (amended): for every positive `k` representable in the stored
`i16` hat sign (`k ≤ 32767`), the hat value sequence `0, k, 0` from a
stored sign of 0 yields exactly a press of the positive-side button
followed by a release of that same button, for both hat axes. -/
theorem C3_hat_sequence (ai : AxesInfo) (k : ℤ) (hk : 0 < k) (hk2 : k ≤ 32767) :
    decodeAll (DecodeState.mk Mapping.new ai (0, 0))
        [InputRecord.mk EV_ABS ABS_HAT0X 0, InputRecord.mk EV_ABS ABS_HAT0X k,
         InputRecord.mk EV_ABS ABS_HAT0X 0]
      = [Event.ButtonPressed Button.DPadRight, Event.ButtonReleased Button.DPadRight]
    ∧ decodeAll (DecodeState.mk Mapping.new ai (0, 0))
        [InputRecord.mk EV_ABS ABS_HAT0Y 0, InputRecord.mk EV_ABS ABS_HAT0Y k,
         InputRecord.mk EV_ABS ABS_HAT0Y 0]
      = [Event.ButtonPressed Button.DPadDown, Event.ButtonReleased Button.DPadDown] := by
  have ht0 : toI16 0 = 0 := by decide
  have htk : toI16 k = k := by unfold toI16; omega
  have hk0 : ¬(k = 0) := by omega
  constructor <;>
    simp [decodeAll, processRecord, Mapping.map, Mapping.new, vmGet, EV_ABS, EV_KEY,
      ABS_HAT0X, ABS_HAT0Y, ht0, htk, hk, hk0]

/-- Witness for C3 at `k = 1`. -/
theorem C3_hat_sequence_witness :
    (0 : ℤ) < 1
    ∧ decodeAll (DecodeState.mk Mapping.new zeroAxesInfo (0, 0))
        [InputRecord.mk EV_ABS ABS_HAT0X 0, InputRecord.mk EV_ABS ABS_HAT0X 1,
         InputRecord.mk EV_ABS ABS_HAT0X 0]
      = [Event.ButtonPressed Button.DPadRight, Event.ButtonReleased Button.DPadRight] :=
  ⟨by decide, (C3_hat_sequence zeroAxesInfo 1 (by decide) (by decide)).1⟩

end Gilrs
